import Mathlib

/-!
# Car-rental management system: verification of the lifecycle/reconciliation spec

Shallow embedding of the data model and operations of a car-rental back-office
application (Supabase/React). The database state is a triple of row lists
(cars, rentals, payments); each service call is a pure state transformer that
mirrors the sequence of queries the source issues. Money amounts (`decimal(10,2)`
columns and JS numbers) are modelled as `ℚ`; `date` columns as integer day
numbers, so that `date-fns`'s `differenceInDays` on date-only values is integer
subtraction.
-/

namespace CarRental

/-- Car status: `check (status in ('Available', 'Rented', 'Maintenance'))`. -/
inductive CarStatus
  | Available
  | Rented
  | Maintenance
deriving DecidableEq, Repr

/-- Rental status: `check (status in ('Ongoing', 'Completed', 'Cancelled'))`. -/
inductive RentalStatus
  | Ongoing
  | Completed
  | Cancelled
deriving DecidableEq, Repr

/-- Payment method options of the payment form select. -/
inductive PaymentMethod
  | Cash
  | CreditCard
  | DebitCard
  | BankTransfer
deriving DecidableEq, Repr

/-- Payment status: `check (status in ('Paid', 'Pending', 'Failed'))`. -/
inductive PaymentStatus
  | Paid
  | Pending
  | Failed
deriving DecidableEq, Repr

/-- A row of the `cars` table. -/
structure Car where
  carId : Nat
  brand : String
  model : String
  year : Nat
  licensePlate : String
  status : CarStatus
  dailyRate : ℚ
deriving DecidableEq, Repr

/-- A row of the `rentals` table (the schema has `rental_date`, optional
`return_date`, `total_cost`, `status`; there is no expected-return column —
the expected return date is only a creation-time input). -/
structure Rental where
  rentalId : Nat
  customerId : Nat
  carId : Nat
  rentalDate : Int
  returnDate : Option Int
  totalCost : ℚ
  status : RentalStatus
deriving DecidableEq, Repr

/-- A row of the `payments` table. -/
structure Payment where
  paymentId : Nat
  rentalId : Nat
  amount : ℚ
  paymentDate : Int
  method : PaymentMethod
  status : PaymentStatus
deriving DecidableEq, Repr

/-- The database state the services read and write. -/
structure DB where
  cars : List Car
  rentals : List Rental
  payments : List Payment
deriving DecidableEq, Repr

/-- `supabase.from('cars').update({ status }).eq('car_id', id)`. -/
def updateCarStatus (cars : List Car) (id : Nat) (s : CarStatus) : List Car :=
  cars.map (fun c => if c.carId = id then { c with status := s } else c)

/-- `supabase.from('rentals').select().eq('rental_id', id).single()`. -/
def findRental (db : DB) (id : Nat) : Option Rental :=
  db.rentals.find? (fun r => r.rentalId == id)

/-- `date-fns` `differenceInDays` on two date-only values: the (signed) number
of whole days from `earlier` to `later`. -/
def differenceInDays (later earlier : Int) : Int :=
  later - earlier

/-- RentalModal's total-cost effect:
`setTotalCost(Math.max(1, days) * selectedCar.daily_rate)` where
`days = differenceInDays(new Date(expectedReturnDate), new Date(rentalDate))`. -/
def rentalTotalCost (rentalDate expectedReturnDate : Int) (dailyRate : ℚ) : ℚ :=
  ((max 1 (differenceInDays expectedReturnDate rentalDate) : ℤ) : ℚ) * dailyRate

/-- `rentalService.create`: insert the rental row; if the insert errors, throw.
Otherwise issue the car-status update to `'Rented'` — the source discards that
query's result object (`await supabase.from('cars').update(...)` with no error
check), so a failure of the second write surfaces no error and leaves the car
row unchanged while the inserted rental stays committed. Backend failures are
injected as parameters: `insertError` is the error of the insert (if any) and
`carUpdateFails` tells whether the car update write fails. -/
def rentalServiceCreate (insertError : Option String) (carUpdateFails : Bool)
    (db : DB) (r : Rental) : Option String × DB :=
  match insertError with
  | some e => (some e, db)
  | none =>
    let db1 : DB := { db with rentals := db.rentals ++ [r] }
    if carUpdateFails then
      (none, db1)
    else
      (none, { db1 with cars := updateCarStatus db1.cars r.carId CarStatus.Rented })

/-- `RentalModal.onSubmit` (success path): builds the insert payload from the
form data with `status: 'Ongoing'` and `total_cost: totalCost` (the value the
effect computed from the selected car and the two dates), then calls
`rentalService.create`. -/
def rentalModalSubmit (db : DB) (newId custId : Nat) (car : Car)
    (rentalDate expectedReturnDate : Int) : Option String × DB :=
  rentalServiceCreate none false db
    { rentalId := newId
      customerId := custId
      carId := car.carId
      rentalDate := rentalDate
      returnDate := none
      totalCost := rentalTotalCost rentalDate expectedReturnDate car.dailyRate
      status := RentalStatus.Ongoing }

/-- `rentalService.complete`: look the rental up by id; if absent, throw
`'Rental not found'` before any update. Otherwise set the rental row to
`Completed` with the given return date, then set its car to `Available`. -/
def rentalServiceComplete (db : DB) (id : Nat) (returnDate : Int) :
    Option String × DB :=
  match findRental db id with
  | none => (some "Rental not found", db)
  | some rental =>
    let db1 : DB := { db with
      rentals := db.rentals.map (fun r =>
        if r.rentalId = id then
          { r with status := RentalStatus.Completed, returnDate := some returnDate }
        else r) }
    (none, { db1 with cars := updateCarStatus db1.cars rental.carId CarStatus.Available })

/-- `rentalService.cancel`: look the rental up by id; if absent, throw
`'Rental not found'` before any update. Otherwise set the rental row's status
to `Cancelled` (its return date and all payment rows untouched), then set its
car to `Available` unconditionally. -/
def rentalServiceCancel (db : DB) (id : Nat) : Option String × DB :=
  match findRental db id with
  | none => (some "Rental not found", db)
  | some rental =>
    let db1 : DB := { db with
      rentals := db.rentals.map (fun r =>
        if r.rentalId = id then { r with status := RentalStatus.Cancelled } else r) }
    (none, { db1 with cars := updateCarStatus db1.cars rental.carId CarStatus.Available })

/-- PaymentModal's `fetchPreviousPayments` total:
`payments.reduce((sum, payment) => sum + payment.amount, 0)` over the rows with
`rental_id = rid`. -/
def sumPaymentsFor (payments : List Payment) (rid : Nat) : ℚ :=
  (payments.filter (fun p => p.rentalId == rid)).foldl (fun s p => s + p.amount) 0

/-- `paymentSchema` (zod): `amount` positive and
`refine(val => val <= 1000000)`. -/
def paymentSchemaValid (amount : ℚ) : Bool :=
  0 < amount && amount ≤ 1000000

/-- The amount input element carries `max={remainingBalance}`; the form has no
`noValidate`, so the browser's native constraint validation rejects a submitted
amount above the remaining balance before the submit handler runs. -/
def amountInputValid (amount remainingBalance : ℚ) : Bool :=
  amount ≤ remainingBalance

/-- The client-side validation the payment form applies before `onSubmit` runs:
the zod schema together with the input's `max` bound. -/
def paymentClientValid (amount remainingBalance : ℚ) : Bool :=
  paymentSchemaValid amount && amountInputValid amount remainingBalance

/-- The toast shown by `PaymentModal.onSubmit`: either
`'Full payment processed and rental completed'` or the partial-payment message
`'Partial payment processed. Remaining balance: $X'` carrying the remaining
balance value `X`. -/
inductive PaymentMessage
  | fullPayment
  | remainingBalance (x : ℚ)
deriving DecidableEq, Repr

/-- `PaymentModal.onSubmit` (success path): insert the payment row with status
`'Paid'`; compute `newTotalPaid = totalPaid + amount` where `totalPaid` is the
sum of prior payments for the rental; if `newTotalPaid >= rental.total_cost`,
update the rental to `Completed` with `return_date` = today and the car to
`Available`, and report the full-payment message; otherwise leave the rental
and car rows untouched and report the partial-payment message with remaining
balance `rental.total_cost - newTotalPaid`. -/
def paymentModalSubmit (db : DB) (rental : Rental) (newPid : Nat)
    (amount : ℚ) (method : PaymentMethod) (payDate today : Int) :
    PaymentMessage × DB :=
  let totalPaid := sumPaymentsFor db.payments rental.rentalId
  let db1 : DB := { db with
    payments := db.payments ++
      [{ paymentId := newPid
         rentalId := rental.rentalId
         amount := amount
         paymentDate := payDate
         method := method
         status := PaymentStatus.Paid }] }
  let newTotalPaid := totalPaid + amount
  if rental.totalCost ≤ newTotalPaid then
    (PaymentMessage.fullPayment,
     { db1 with
       rentals := db1.rentals.map (fun r =>
         if r.rentalId = rental.rentalId then
           { r with status := RentalStatus.Completed, returnDate := some today }
         else r)
       cars := updateCarStatus db1.cars rental.carId CarStatus.Available })
  else
    (PaymentMessage.remainingBalance (rental.totalCost - newTotalPaid), db1)

/-- `reportService.getRevenue`: select `total_cost` of rentals with
`rental_date >= startDate` and `status = 'Completed'`, then
`reduce((sum, rental) => sum + rental.total_cost, 0)`. -/
def getRevenue (rentals : List Rental) (startDate : Int) : ℚ :=
  (rentals.filter (fun r => startDate ≤ r.rentalDate && r.status == RentalStatus.Completed)).foldl
    (fun s r => s + r.totalCost) 0

/-- The row filter both top-N report queries share:
`.gte('rental_date', startDate).neq('status', 'Cancelled')`. -/
def reportRowSelected (startDate : Int) (r : Rental) : Bool :=
  startDate ≤ r.rentalDate && r.status != RentalStatus.Cancelled

/-- One step of `getTopCars`'s reduce: `acc[rental.car_id]` is created with
`rental_count: 0` when absent and then incremented. The accumulator object is
modelled as an association list from `car_id` to `rental_count`; the verified
properties do not depend on the enumeration order of the object's entries. -/
def bumpCarCount (acc : List (Nat × Nat)) (cid : Nat) : List (Nat × Nat) :=
  match acc with
  | [] => [(cid, 1)]
  | e :: rest =>
    if e.1 = cid then (e.1, e.2 + 1) :: rest else e :: bumpCarCount rest cid

/-- The `carCounts` accumulator of `getTopCars` over the selected rows. -/
def carCounts (rs : List Rental) : List (Nat × Nat) :=
  rs.foldl (fun acc r => bumpCarCount acc r.carId) []

/-- `getTopCars` sorts by `(a, b) => b.rental_count - a.rental_count`:
descending rental count. -/
def countGe (a b : Nat × Nat) : Prop :=
  b.2 ≤ a.2

instance : DecidableRel countGe :=
  fun a b => inferInstanceAs (Decidable (b.2 ≤ a.2))

instance : IsTotal (Nat × Nat) countGe :=
  ⟨fun a b => (Nat.le_total b.2 a.2).imp id id⟩

instance : IsTrans (Nat × Nat) countGe :=
  ⟨fun _ _ _ hab hbc => Nat.le_trans hbc hab⟩

/-- `reportService.getTopCars`: select rows with `rental_date >= startDate` and
`status <> 'Cancelled'`, group by `car_id` counting occurrences, sort by
descending `rental_count`, `slice(0, 5)`. -/
def getTopCars (rentals : List Rental) (startDate : Int) : List (Nat × Nat) :=
  ((carCounts (rentals.filter (reportRowSelected startDate))).insertionSort countGe).take 5

/-- An entry of `getTopCustomers`'s accumulator:
`{ customer, rental_count, total_spent }` keyed by `customer_id`. -/
structure CustomerStat where
  customerId : Nat
  rentalCount : Nat
  totalSpent : ℚ
deriving DecidableEq, Repr

/-- One step of `getTopCustomers`'s reduce: `acc[rental.customer_id]` is
created with `rental_count: 0, total_spent: 0` when absent, then its count is
incremented and `total_spent` increased by the row's `total_cost`. -/
def bumpCustomerStat (acc : List CustomerStat) (cid : Nat) (cost : ℚ) :
    List CustomerStat :=
  match acc with
  | [] => [{ customerId := cid, rentalCount := 1, totalSpent := cost }]
  | e :: rest =>
    if e.customerId = cid then
      { e with rentalCount := e.rentalCount + 1, totalSpent := e.totalSpent + cost } :: rest
    else
      e :: bumpCustomerStat rest cid cost

/-- The `customerStats` accumulator of `getTopCustomers` over the selected rows. -/
def customerStats (rs : List Rental) : List CustomerStat :=
  rs.foldl (fun acc r => bumpCustomerStat acc r.customerId r.totalCost) []

/-- `getTopCustomers` sorts by `(a, b) => b.total_spent - a.total_spent`:
descending total spent. -/
def spentGe (a b : CustomerStat) : Prop :=
  b.totalSpent ≤ a.totalSpent

instance : DecidableRel spentGe :=
  fun a b => inferInstanceAs (Decidable (b.totalSpent ≤ a.totalSpent))

instance : IsTotal CustomerStat spentGe :=
  ⟨fun a b => (le_total b.totalSpent a.totalSpent).imp id id⟩

instance : IsTrans CustomerStat spentGe :=
  ⟨fun _ _ _ hab hbc => le_trans hbc hab⟩

/-- `reportService.getTopCustomers`: select rows with `rental_date >= startDate`
and `status <> 'Cancelled'`, group by `customer_id` counting occurrences and
summing `total_cost`, sort by descending `total_spent`, `slice(0, 5)`. -/
def getTopCustomers (rentals : List Rental) (startDate : Int) : List CustomerStat :=
  ((customerStats (rentals.filter (reportRowSelected startDate))).insertionSort spentGe).take 5

/-- Reading a car id's accumulated `rental_count` out of the grouping
accumulator (0 when the key is absent). -/
def lookupCount (acc : List (Nat × Nat)) (cid : Nat) : Nat :=
  match acc with
  | [] => 0
  | e :: rest => if e.1 = cid then e.2 else lookupCount rest cid

/-- Reading a customer id's accumulated `(rental_count, total_spent)` out of
the grouping accumulator (`(0, 0)` when the key is absent). -/
def lookupStat (acc : List CustomerStat) (cid : Nat) : Nat × ℚ :=
  match acc with
  | [] => (0, 0)
  | e :: rest =>
    if e.customerId = cid then (e.rentalCount, e.totalSpent) else lookupStat rest cid

/-- The total `total_cost` of the rentals of one customer in a row list. -/
def spentFor (rs : List Rental) (cid : Nat) : ℚ :=
  ((rs.filter (fun r => r.customerId == cid)).map Rental.totalCost).sum

/-- Modelled from the spec's words (§4.4, Revenue): "sum of `total_cost` over
Rentals with status Completed and rental_date ≥ cutoff" — stated independently
of `getRevenue` for comparison. -/
def revenueSpec (rentals : List Rental) (cutoff : Int) : ℚ :=
  ((rentals.filter (fun r => r.status == RentalStatus.Completed && cutoff ≤ r.rentalDate)).map
    Rental.totalCost).sum

/-- Concrete fixture: an Available car with daily rate 50. -/
def sampleCar : Car :=
  { carId := 1, brand := "Toyota", model := "Corolla", year := 2020
    licensePlate := "B1234", status := CarStatus.Available, dailyRate := 50 }

/-- Concrete fixture: an Ongoing rental of `sampleCar` with total cost 150. -/
def sampleRental : Rental :=
  { rentalId := 1, customerId := 1, carId := 1, rentalDate := 0
    returnDate := none, totalCost := 150, status := RentalStatus.Ongoing }

/-- Concrete fixture: a second rental row used as an insert payload. -/
def secondRental : Rental :=
  { rentalId := 2, customerId := 1, carId := 1, rentalDate := 5
    returnDate := none, totalCost := 100, status := RentalStatus.Ongoing }

/-- Concrete fixture: a database holding `sampleCar` and `sampleRental` with
no payments recorded. -/
def sampleDB : DB :=
  { cars := [sampleCar], rentals := [sampleRental], payments := [] }

/-- Fixture for the revenue scenario: Completed rental of 100 in the window. -/
def completedRentalA : Rental :=
  { rentalId := 3, customerId := 1, carId := 1, rentalDate := 40
    returnDate := some 42, totalCost := 100, status := RentalStatus.Completed }

/-- Fixture for the revenue scenario: Completed rental of 200 in the window. -/
def completedRentalB : Rental :=
  { rentalId := 4, customerId := 2, carId := 2, rentalDate := 45
    returnDate := some 46, totalCost := 200, status := RentalStatus.Completed }

/-- Fixture for the revenue scenario: Cancelled rental of 500 in the window. -/
def cancelledRentalC : Rental :=
  { rentalId := 5, customerId := 3, carId := 3, rentalDate := 50
    returnDate := none, totalCost := 500, status := RentalStatus.Cancelled }

/-- Folding `fun s x => s + f x` over a list is the sum of the mapped list. -/
theorem foldl_add_sum {α : Type} (f : α → ℚ) :
    ∀ (l : List α) (a : ℚ), l.foldl (fun s x => s + f x) a = a + (l.map f).sum
  | [], a => by simp
  | x :: xs, a => by
    simp only [List.foldl_cons, List.map_cons, List.sum_cons]
    rw [foldl_add_sum f xs (a + f x)]
    ring

/-- C4: for every rental creation with rental date `d1`, expected return date
`d2` and a selected car of daily rate `r`, the created rental row's total cost
is `max(1, wholeDays(d2 - d1)) * r`; in particular a span of one day or less
is charged exactly one day's rate. -/
theorem rental_creation_total_cost (db : DB) (newId custId : Nat) (car : Car)
    (d1 d2 : Int) :
    ∃ r : Rental,
      ((rentalModalSubmit db newId custId car d1 d2).2.rentals).getLast? = some r ∧
      r.totalCost = ((max 1 (d2 - d1) : ℤ) : ℚ) * car.dailyRate ∧
      (d2 - d1 ≤ 1 → r.totalCost = car.dailyRate) := by
  refine ⟨{ rentalId := newId, customerId := custId, carId := car.carId
            rentalDate := d1, returnDate := none
            totalCost := rentalTotalCost d1 d2 car.dailyRate
            status := RentalStatus.Ongoing }, ?_, rfl, ?_⟩
  · simp [rentalModalSubmit, rentalServiceCreate, List.getLast?_concat]
  · intro h
    simp [rentalTotalCost, differenceInDays, max_eq_left h]

/-- Witness for C4 at a concrete zero-day span. -/
theorem rental_creation_total_cost_witness :
    ∃ r : Rental,
      ((rentalModalSubmit sampleDB 2 1 sampleCar 5 5).2.rentals).getLast? = some r ∧
      r.totalCost = sampleCar.dailyRate := by
  obtain ⟨r, h1, -, h3⟩ := rental_creation_total_cost sampleDB 2 1 sampleCar 5 5
  exact ⟨r, h1, h3 (by decide)⟩

/-- C5: cancelling an existing rental reports no error, leaves all payment
rows and every rental's return date unchanged, sets the cancelled rental's
status to Cancelled, and unconditionally sets its car's status to Available. -/
theorem cancel_frame_effect (db : DB) (id : Nat) (rental : Rental)
    (hfind : findRental db id = some rental) :
    (rentalServiceCancel db id).1 = none ∧
    (rentalServiceCancel db id).2.payments = db.payments ∧
    ((rentalServiceCancel db id).2.rentals).map Rental.returnDate =
      db.rentals.map Rental.returnDate ∧
    (∀ r ∈ (rentalServiceCancel db id).2.rentals,
      r.rentalId = id → r.status = RentalStatus.Cancelled) ∧
    (∀ c ∈ (rentalServiceCancel db id).2.cars,
      c.carId = rental.carId → c.status = CarStatus.Available) := by
  have heq : rentalServiceCancel db id =
      (none,
       { db with
         rentals := db.rentals.map (fun r =>
           if r.rentalId = id then { r with status := RentalStatus.Cancelled } else r)
         cars := updateCarStatus db.cars rental.carId CarStatus.Available }) := by
    unfold rentalServiceCancel
    rw [hfind]
  rw [heq]
  refine ⟨rfl, rfl, ?_, ?_, ?_⟩
  · rw [List.map_map]
    refine List.map_congr_left ?_
    intro r _
    by_cases h : r.rentalId = id <;> simp [h]
  · intro r hr hid
    rw [List.mem_map] at hr
    obtain ⟨r0, -, rfl⟩ := hr
    by_cases h : r0.rentalId = id
    · simp [h]
    · simp only [if_neg h] at hid ⊢
      exact absurd hid h
  · intro c hc hid
    simp only [updateCarStatus, List.mem_map] at hc
    obtain ⟨c0, -, rfl⟩ := hc
    by_cases h : c0.carId = rental.carId
    · simp [h]
    · simp only [if_neg h] at hid ⊢
      exact absurd hid h

/-- Witness for C5 on the concrete database. -/
theorem cancel_frame_effect_witness :
    findRental sampleDB 1 = some sampleRental ∧
    (rentalServiceCancel sampleDB 1).2.payments = sampleDB.payments ∧
    (∀ c ∈ (rentalServiceCancel sampleDB 1).2.cars,
      c.carId = sampleRental.carId → c.status = CarStatus.Available) := by
  have h := cancel_frame_effect sampleDB 1 sampleRental (by rfl)
  exact ⟨by rfl, h.2.1, h.2.2.2.2⟩

/-- C6: the revenue report sums `total_cost` over exactly the Completed
rentals dated at or after the cutoff, and on the concrete scenario
(Completed 100 and 200 in the window, Cancelled 500) it reports 300. -/
theorem revenue_completed_only (rentals : List Rental) (cutoff : Int) :
    getRevenue rentals cutoff = revenueSpec rentals cutoff ∧
    getRevenue [completedRentalA, completedRentalB, cancelledRentalC] 30 = 300 := by
  constructor
  · unfold getRevenue revenueSpec
    rw [foldl_add_sum Rental.totalCost, zero_add,
      List.filter_congr (fun r _ => Bool.and_comm _ _)]
  · simp +decide [getRevenue, completedRentalA, completedRentalB, cancelledRentalC]
    norm_num

/-- C8: a successful rental creation inserts a row with status Ongoing and
the computed total cost, reports no error, and sets the selected car's status
to Rented; a 3-day rental at daily rate 50 has total cost 150. -/
theorem rental_creation_effect (db : DB) (newId custId : Nat) (car : Car)
    (d1 d2 : Int) (_hAvail : car.status = CarStatus.Available) :
    (rentalModalSubmit db newId custId car d1 d2).1 = none ∧
    (∃ row : Rental,
      (rentalModalSubmit db newId custId car d1 d2).2.rentals = db.rentals ++ [row] ∧
      row.status = RentalStatus.Ongoing ∧
      (d2 - d1 = 3 → car.dailyRate = 50 → row.totalCost = 150)) ∧
    (∀ c ∈ (rentalModalSubmit db newId custId car d1 d2).2.cars,
      c.carId = car.carId → c.status = CarStatus.Rented) := by
  refine ⟨rfl, ⟨{ rentalId := newId, customerId := custId, carId := car.carId
                  rentalDate := d1, returnDate := none
                  totalCost := rentalTotalCost d1 d2 car.dailyRate
                  status := RentalStatus.Ongoing }, rfl, rfl, ?_⟩, ?_⟩
  · intro h3 h50
    simp [rentalTotalCost, differenceInDays, h3, h50]
    norm_num
  · intro c hc hid
    simp only [rentalModalSubmit, rentalServiceCreate, if_neg Bool.false_ne_true,
      updateCarStatus, List.mem_map] at hc
    obtain ⟨c0, -, rfl⟩ := hc
    by_cases h : c0.carId = car.carId
    · simp [h]
    · simp only [if_neg h] at hid ⊢
      exact absurd hid h

/-- Witness for C8: the 3-day scenario on the concrete database. -/
theorem rental_creation_effect_witness :
    sampleCar.status = CarStatus.Available ∧
    (∃ row : Rental,
      (rentalModalSubmit sampleDB 2 1 sampleCar 0 3).2.rentals =
        sampleDB.rentals ++ [row] ∧
      row.status = RentalStatus.Ongoing ∧ row.totalCost = 150) := by
  obtain ⟨-, ⟨row, hrow, hstat, hcost⟩, -⟩ :=
    rental_creation_effect sampleDB 2 1 sampleCar 0 3 (by rfl)
  exact ⟨rfl, row, hrow, hstat, hcost (by decide) (by decide)⟩

/-- C9 counterexample: at a concrete input where the rental insert succeeds
and the car-status update write fails, `rentalService.create` surfaces no
error (the second write's result object is discarded by the source), while
the inserted rental stays committed and the car row is unchanged — refuting
"if either write fails, the operation surfaces an error". -/
theorem create_car_update_failure_silent :
    (rentalServiceCreate none true sampleDB secondRental).1 = none ∧
    (rentalServiceCreate none true sampleDB secondRental).2.rentals =
      sampleDB.rentals ++ [secondRental] ∧
    (rentalServiceCreate none true sampleDB secondRental).2.cars = sampleDB.cars :=
  ⟨rfl, rfl, rfl⟩

/-- C9 amended: if the rental insert fails, `rentalService.create` surfaces
that error and writes nothing; if the insert succeeds and the car-status
update fails, no error is surfaced, the inserted rental stays committed (no
rollback), and the car row is unchanged. -/
theorem create_failure_handling (db : DB) (r : Rental) (e : String) (b : Bool) :
    rentalServiceCreate (some e) b db r = (some e, db) ∧
    (rentalServiceCreate none true db r).1 = none ∧
    (rentalServiceCreate none true db r).2.rentals = db.rentals ++ [r] ∧
    (rentalServiceCreate none true db r).2.cars = db.cars :=
  ⟨rfl, rfl, rfl, rfl⟩

/-- C10: completing or cancelling a rental id absent from the store fails
with 'Rental not found' and returns the database unchanged. -/
theorem missing_rental_not_found (db : DB) (id : Nat) (d : Int)
    (hmiss : findRental db id = none) :
    rentalServiceComplete db id d = (some "Rental not found", db) ∧
    rentalServiceCancel db id = (some "Rental not found", db) := by
  constructor <;> simp [rentalServiceComplete, rentalServiceCancel, hmiss]

/-- Witness for C10 on the concrete database with an absent rental id. -/
theorem missing_rental_not_found_witness :
    findRental sampleDB 99 = none ∧
    rentalServiceCancel sampleDB 99 = (some "Rental not found", sampleDB) := by
  have h := missing_rental_not_found sampleDB 99 0 (by rfl)
  exact ⟨by rfl, h.2⟩

/-- Summing payments for a rental distributes over list append. -/
theorem sumPaymentsFor_append (ps qs : List Payment) (rid : Nat) :
    sumPaymentsFor (ps ++ qs) rid = sumPaymentsFor ps rid + sumPaymentsFor qs rid := by
  unfold sumPaymentsFor
  rw [List.filter_append, foldl_add_sum Payment.amount, foldl_add_sum Payment.amount,
    foldl_add_sum Payment.amount, List.map_append, List.sum_append]
  ring

/-- Both branches of `PaymentModal.onSubmit` leave the payments table equal to
the old table with the new `Paid` row appended, so the recorded sum for the
rental grows by exactly the submitted amount. -/
theorem submit_payments_sum (db : DB) (rental : Rental) (pid : Nat) (a : ℚ)
    (m : PaymentMethod) (payDate today : Int) :
    sumPaymentsFor (paymentModalSubmit db rental pid a m payDate today).2.payments
        rental.rentalId =
      sumPaymentsFor db.payments rental.rentalId + a := by
  simp only [paymentModalSubmit]
  by_cases h : rental.totalCost ≤ sumPaymentsFor db.payments rental.rentalId + a
  · rw [if_pos h]
    show sumPaymentsFor (db.payments ++ [_]) rental.rentalId = _
    rw [sumPaymentsFor_append]
    simp [sumPaymentsFor]
  · rw [if_neg h]
    show sumPaymentsFor (db.payments ++ [_]) rental.rentalId = _
    rw [sumPaymentsFor_append]
    simp [sumPaymentsFor]

/-- C1: when the prior payments plus the submitted amount reach the rental's
total cost, the submission reports the full-payment message, marks the rental
Completed with return date = today, and sets its car to Available. -/
theorem full_payment_completes (db : DB) (rental : Rental) (pid : Nat) (a : ℚ)
    (m : PaymentMethod) (payDate today : Int)
    (hfull : rental.totalCost ≤ sumPaymentsFor db.payments rental.rentalId + a) :
    (paymentModalSubmit db rental pid a m payDate today).1 =
      PaymentMessage.fullPayment ∧
    (∀ r ∈ (paymentModalSubmit db rental pid a m payDate today).2.rentals,
      r.rentalId = rental.rentalId →
        r.status = RentalStatus.Completed ∧ r.returnDate = some today) ∧
    (∀ c ∈ (paymentModalSubmit db rental pid a m payDate today).2.cars,
      c.carId = rental.carId → c.status = CarStatus.Available) := by
  have heq : paymentModalSubmit db rental pid a m payDate today =
      (PaymentMessage.fullPayment,
       { cars := updateCarStatus db.cars rental.carId CarStatus.Available
         rentals := db.rentals.map (fun r =>
           if r.rentalId = rental.rentalId then
             { r with status := RentalStatus.Completed, returnDate := some today }
           else r)
         payments := db.payments ++
           [{ paymentId := pid, rentalId := rental.rentalId, amount := a
              paymentDate := payDate, method := m, status := PaymentStatus.Paid }] }) := by
    simp only [paymentModalSubmit]
    rw [if_pos hfull]
  rw [heq]
  refine ⟨rfl, ?_, ?_⟩
  · intro r hr hid
    rw [List.mem_map] at hr
    obtain ⟨r0, -, rfl⟩ := hr
    by_cases h : r0.rentalId = rental.rentalId
    · simp [h]
    · simp only [if_neg h] at hid ⊢
      exact absurd hid h
  · intro c hc hid
    simp only [updateCarStatus, List.mem_map] at hc
    obtain ⟨c0, -, rfl⟩ := hc
    by_cases h : c0.carId = rental.carId
    · simp [h]
    · simp only [if_neg h] at hid ⊢
      exact absurd hid h

/-- Witness for C1: paying 150 against a 150 rental with no prior payments. -/
theorem full_payment_completes_witness :
    sampleRental.totalCost ≤
      sumPaymentsFor sampleDB.payments sampleRental.rentalId + 150 ∧
    (paymentModalSubmit sampleDB sampleRental 1 150 PaymentMethod.Cash 20 20).1 =
      PaymentMessage.fullPayment := by
  have hfull : sampleRental.totalCost ≤
      sumPaymentsFor sampleDB.payments sampleRental.rentalId + 150 := by
    norm_num [sumPaymentsFor, sampleDB, sampleRental]
  exact ⟨hfull,
    (full_payment_completes sampleDB sampleRental 1 150 PaymentMethod.Cash 20 20 hfull).1⟩

/-- C2: when the prior payments plus the submitted amount stay below the
rental's total cost, the submission reports the remaining balance
`total_cost - (prior + amount)` and leaves every rental row and car row
unchanged. -/
theorem below_total_keeps_ongoing (db : DB) (rental : Rental) (pid : Nat) (a : ℚ)
    (m : PaymentMethod) (payDate today : Int)
    (hlt : sumPaymentsFor db.payments rental.rentalId + a < rental.totalCost) :
    (paymentModalSubmit db rental pid a m payDate today).1 =
      PaymentMessage.remainingBalance
        (rental.totalCost - (sumPaymentsFor db.payments rental.rentalId + a)) ∧
    (paymentModalSubmit db rental pid a m payDate today).2.rentals = db.rentals ∧
    (paymentModalSubmit db rental pid a m payDate today).2.cars = db.cars := by
  simp only [paymentModalSubmit]
  rw [if_neg (not_le.mpr hlt)]
  exact ⟨rfl, rfl, rfl⟩

/-- Witness for C2: paying 60 against a 150 rental with no prior payments
reports a remaining balance of 90. -/
theorem below_total_keeps_ongoing_witness :
    sumPaymentsFor sampleDB.payments sampleRental.rentalId + 60 <
      sampleRental.totalCost ∧
    (paymentModalSubmit sampleDB sampleRental 1 60 PaymentMethod.Cash 20 20).1 =
      PaymentMessage.remainingBalance 90 ∧
    (paymentModalSubmit sampleDB sampleRental 1 60 PaymentMethod.Cash 20 20).2.rentals =
      sampleDB.rentals := by
  have hlt : sumPaymentsFor sampleDB.payments sampleRental.rentalId + 60 <
      sampleRental.totalCost := by
    norm_num [sumPaymentsFor, sampleDB, sampleRental]
  have h := below_total_keeps_ongoing sampleDB sampleRental 1 60 PaymentMethod.Cash 20 20 hlt
  refine ⟨hlt, ?_, h.2.1⟩
  rw [h.1]
  norm_num [sumPaymentsFor, sampleDB, sampleRental]

/-- C3: when the client-side validation (the zod schema plus the amount
input's `max` bound) accepts the amount against the current remaining balance,
the amount is positive and at most the remaining balance, and after the
submission the recorded payments for the rental still sum to at most
its total cost. -/
theorem payment_validation_bounds (db : DB) (rental : Rental) (pid : Nat) (a : ℚ)
    (m : PaymentMethod) (payDate today : Int)
    (_hprior : sumPaymentsFor db.payments rental.rentalId ≤ rental.totalCost)
    (hvalid : paymentClientValid a
      (rental.totalCost - sumPaymentsFor db.payments rental.rentalId) = true) :
    0 < a ∧
    a ≤ rental.totalCost - sumPaymentsFor db.payments rental.rentalId ∧
    sumPaymentsFor (paymentModalSubmit db rental pid a m payDate today).2.payments
      rental.rentalId ≤ rental.totalCost := by
  simp only [paymentClientValid, paymentSchemaValid, amountInputValid,
    Bool.and_eq_true, decide_eq_true_eq] at hvalid
  obtain ⟨⟨h0, -⟩, hle⟩ := hvalid
  refine ⟨h0, hle, ?_⟩
  rw [submit_payments_sum]
  linarith

/-- Witness for C3: submitting 60 against a 150 rental with no prior
payments passes validation and keeps the recorded sum below the total. -/
theorem payment_validation_bounds_witness :
    sumPaymentsFor sampleDB.payments sampleRental.rentalId ≤
      sampleRental.totalCost ∧
    paymentClientValid 60
      (sampleRental.totalCost - sumPaymentsFor sampleDB.payments sampleRental.rentalId) =
      true ∧
    sumPaymentsFor
      (paymentModalSubmit sampleDB sampleRental 1 60 PaymentMethod.Cash 20 20).2.payments
      sampleRental.rentalId ≤ sampleRental.totalCost := by
  have hprior : sumPaymentsFor sampleDB.payments sampleRental.rentalId ≤
      sampleRental.totalCost := by
    norm_num [sumPaymentsFor, sampleDB, sampleRental]
  have hvalid : paymentClientValid 60
      (sampleRental.totalCost - sumPaymentsFor sampleDB.payments sampleRental.rentalId) =
      true := by
    norm_num [paymentClientValid, paymentSchemaValid, amountInputValid,
      sumPaymentsFor, sampleDB, sampleRental]
  exact ⟨hprior, hvalid,
    (payment_validation_bounds sampleDB sampleRental 1 60 PaymentMethod.Cash 20 20
      hprior hvalid).2.2⟩

/-- Bumping one key changes only that key's count in the accumulator. -/
theorem lookupCount_bumpCarCount (acc : List (Nat × Nat)) (c cid : Nat) :
    lookupCount (bumpCarCount acc c) cid =
      if c = cid then lookupCount acc cid + 1 else lookupCount acc cid := by
  induction acc with
  | nil =>
    by_cases h : c = cid <;> simp [bumpCarCount, lookupCount, h]
  | cons e rest ih =>
    by_cases he : e.1 = c
    · by_cases hc : e.1 = cid
      · have hcc : c = cid := he ▸ hc
        simp [bumpCarCount, lookupCount, he, hc, hcc]
      · have hcc : ¬c = cid := fun h => hc (he.symm ▸ h ▸ rfl)
        simp [bumpCarCount, lookupCount, he, hc, hcc]
    · by_cases hc : e.1 = cid
      · have hcc : ¬c = cid := fun h => he (by rw [h, hc])
        have he2 : ¬cid = c := fun h => hcc h.symm
        simp [bumpCarCount, lookupCount, he, hc, hcc, he2]
      · simp [bumpCarCount, lookupCount, he, hc, ih]

/-- Folding the grouping step over rows adds each row's contribution to the
count of its own car id. -/
theorem lookupCount_carCounts_fold (rs : List Rental) :
    ∀ (acc : List (Nat × Nat)) (cid : Nat),
      lookupCount (rs.foldl (fun a r => bumpCarCount a r.carId) acc) cid =
        lookupCount acc cid + rs.countP (fun r => r.carId == cid) := by
  induction rs with
  | nil => intro acc cid; simp
  | cons r rs ih =>
    intro acc cid
    rw [List.foldl_cons, ih, lookupCount_bumpCarCount, List.countP_cons]
    by_cases h : r.carId = cid
    · simp [h]
      omega
    · simp [h]

/-- The accumulated count of each car id over the whole row list. -/
theorem lookupCount_carCounts (rs : List Rental) (cid : Nat) :
    lookupCount (carCounts rs) cid = rs.countP (fun r => r.carId == cid) := by
  have h := lookupCount_carCounts_fold rs [] cid
  simpa [carCounts, lookupCount] using h

/-- Bumping a key either leaves the key list unchanged or appends the new key. -/
theorem keys_bumpCarCount (acc : List (Nat × Nat)) (c : Nat) :
    (bumpCarCount acc c).map Prod.fst =
      if c ∈ acc.map Prod.fst then acc.map Prod.fst else acc.map Prod.fst ++ [c] := by
  induction acc with
  | nil => simp [bumpCarCount]
  | cons e rest ih =>
    by_cases he : e.1 = c
    · simp [bumpCarCount, he]
    · have hne : ¬c = e.1 := fun h => he h.symm
      simp only [bumpCarCount, if_neg he, List.map_cons, List.mem_cons, ih]
      by_cases hm : c ∈ rest.map Prod.fst <;> simp [hm, hne]

/-- Bumping a key keeps the accumulator's keys distinct. -/
theorem nodup_keys_bumpCarCount (acc : List (Nat × Nat)) (c : Nat)
    (h : (acc.map Prod.fst).Nodup) : ((bumpCarCount acc c).map Prod.fst).Nodup := by
  rw [keys_bumpCarCount]
  by_cases hm : c ∈ acc.map Prod.fst
  · simpa [hm] using h
  · simp [hm, List.nodup_append, h]

/-- The grouping accumulator built from any duplicate-free start keeps its
keys distinct. -/
theorem nodup_keys_carCounts_fold (rs : List Rental) :
    ∀ acc : List (Nat × Nat), (acc.map Prod.fst).Nodup →
      ((rs.foldl (fun a r => bumpCarCount a r.carId) acc).map Prod.fst).Nodup := by
  induction rs with
  | nil => intro acc h; simpa using h
  | cons r rs ih => intro acc h; exact ih _ (nodup_keys_bumpCarCount acc r.carId h)

/-- The keys of `carCounts` are distinct. -/
theorem nodup_keys_carCounts (rs : List Rental) :
    ((carCounts rs).map Prod.fst).Nodup := by
  have h := nodup_keys_carCounts_fold rs [] (by simp)
  simpa [carCounts] using h

/-- In an accumulator with distinct keys, each entry's count is what lookup
returns for its key. -/
theorem lookupCount_of_mem (acc : List (Nat × Nat)) (e : Nat × Nat)
    (hnd : (acc.map Prod.fst).Nodup) (he : e ∈ acc) :
    lookupCount acc e.1 = e.2 := by
  induction acc with
  | nil => cases he
  | cons x rest ih =>
    rw [List.map_cons, List.nodup_cons] at hnd
    rcases List.mem_cons.mp he with rfl | hmem
    · simp [lookupCount]
    · have hx : ¬x.1 = e.1 := by
        intro h
        exact hnd.1 (h ▸ List.mem_map_of_mem Prod.fst hmem)
      simp [lookupCount, hx, ih hnd.2 hmem]

/-- Every entry of `carCounts` counts exactly the rows with its car id. -/
theorem carCounts_count (rs : List Rental) (e : Nat × Nat)
    (he : e ∈ carCounts rs) :
    e.2 = rs.countP (fun r => r.carId == e.1) := by
  rw [← lookupCount_carCounts rs e.1]
  exact (lookupCount_of_mem (carCounts rs) e (nodup_keys_carCounts rs) he).symm

/-- Bumping one customer key changes only that key's count and spent total. -/
theorem lookupStat_bumpCustomerStat (acc : List CustomerStat) (c cid : Nat)
    (cost : ℚ) :
    lookupStat (bumpCustomerStat acc c cost) cid =
      if c = cid then ((lookupStat acc cid).1 + 1, (lookupStat acc cid).2 + cost)
      else lookupStat acc cid := by
  induction acc with
  | nil =>
    by_cases h : c = cid <;> simp [bumpCustomerStat, lookupStat, h]
  | cons e rest ih =>
    by_cases he : e.customerId = c
    · by_cases hc : e.customerId = cid
      · have hcc : c = cid := he ▸ hc
        simp [bumpCustomerStat, lookupStat, he, hc, hcc]
      · have hcc : ¬c = cid := fun h => hc (he.symm ▸ h ▸ rfl)
        simp [bumpCustomerStat, lookupStat, he, hc, hcc]
    · by_cases hc : e.customerId = cid
      · have hcc : ¬c = cid := fun h => he (by rw [h, hc])
        have he2 : ¬cid = c := fun h => hcc h.symm
        simp [bumpCustomerStat, lookupStat, he, hc, hcc, he2]
      · simp [bumpCustomerStat, lookupStat, he, hc, ih]

/-- Folding the customer grouping step over rows adds each row's contribution
to the count and spent total of its own customer id. -/
theorem lookupStat_customerStats_fold (rs : List Rental) :
    ∀ (acc : List CustomerStat) (cid : Nat),
      lookupStat (rs.foldl (fun a r => bumpCustomerStat a r.customerId r.totalCost) acc) cid =
        ((lookupStat acc cid).1 + rs.countP (fun r => r.customerId == cid),
         (lookupStat acc cid).2 + spentFor rs cid) := by
  induction rs with
  | nil => intro acc cid; simp [spentFor]
  | cons r rs ih =>
    intro acc cid
    rw [List.foldl_cons, ih, lookupStat_bumpCustomerStat, List.countP_cons]
    by_cases h : r.customerId = cid
    · simp only [if_pos h, spentFor, List.filter_cons, h, beq_self_eq_true, if_pos,
        List.map_cons, List.sum_cons]
      refine Prod.ext ?_ ?_
      · simp
        omega
      · simp
        ring
    · have hb : (r.customerId == cid) = false := by simp [h]
      simp only [if_neg h, spentFor, List.filter_cons, hb, Bool.false_eq_true, if_neg,
        not_false_eq_true]
      simp

/-- The accumulated count and spent total of each customer id over the whole
row list. -/
theorem lookupStat_customerStats (rs : List Rental) (cid : Nat) :
    lookupStat (customerStats rs) cid =
      (rs.countP (fun r => r.customerId == cid), spentFor rs cid) := by
  have h := lookupStat_customerStats_fold rs [] cid
  simpa [customerStats, lookupStat] using h

/-- Bumping a customer key either leaves the key list unchanged or appends
the new key. -/
theorem keys_bumpCustomerStat (acc : List CustomerStat) (c : Nat) (cost : ℚ) :
    (bumpCustomerStat acc c cost).map CustomerStat.customerId =
      if c ∈ acc.map CustomerStat.customerId then acc.map CustomerStat.customerId
      else acc.map CustomerStat.customerId ++ [c] := by
  induction acc with
  | nil => simp [bumpCustomerStat]
  | cons e rest ih =>
    by_cases he : e.customerId = c
    · simp [bumpCustomerStat, he]
    · have hne : ¬c = e.customerId := fun h => he h.symm
      simp only [bumpCustomerStat, if_neg he, List.map_cons, List.mem_cons, ih]
      by_cases hm : c ∈ rest.map CustomerStat.customerId <;> simp [hm, hne]

/-- Bumping a customer key keeps the accumulator's keys distinct. -/
theorem nodup_keys_bumpCustomerStat (acc : List CustomerStat) (c : Nat) (cost : ℚ)
    (h : (acc.map CustomerStat.customerId).Nodup) :
    ((bumpCustomerStat acc c cost).map CustomerStat.customerId).Nodup := by
  rw [keys_bumpCustomerStat]
  by_cases hm : c ∈ acc.map CustomerStat.customerId
  · simpa [hm] using h
  · simp [hm, List.nodup_append, h]

/-- The customer accumulator built from any duplicate-free start keeps its
keys distinct. -/
theorem nodup_keys_customerStats_fold (rs : List Rental) :
    ∀ acc : List CustomerStat, (acc.map CustomerStat.customerId).Nodup →
      (((rs.foldl (fun a r => bumpCustomerStat a r.customerId r.totalCost) acc)).map
        CustomerStat.customerId).Nodup := by
  induction rs with
  | nil => intro acc h; simpa using h
  | cons r rs ih =>
    intro acc h
    exact ih _ (nodup_keys_bumpCustomerStat acc r.customerId r.totalCost h)

/-- The keys of `customerStats` are distinct. -/
theorem nodup_keys_customerStats (rs : List Rental) :
    ((customerStats rs).map CustomerStat.customerId).Nodup := by
  have h := nodup_keys_customerStats_fold rs [] (by simp)
  simpa [customerStats] using h

/-- In a customer accumulator with distinct keys, each entry's fields are what
lookup returns for its key. -/
theorem lookupStat_of_mem (acc : List CustomerStat) (e : CustomerStat)
    (hnd : (acc.map CustomerStat.customerId).Nodup) (he : e ∈ acc) :
    lookupStat acc e.customerId = (e.rentalCount, e.totalSpent) := by
  induction acc with
  | nil => cases he
  | cons x rest ih =>
    rw [List.map_cons, List.nodup_cons] at hnd
    rcases List.mem_cons.mp he with rfl | hmem
    · simp [lookupStat]
    · have hx : ¬x.customerId = e.customerId := by
        intro h
        exact hnd.1 (h ▸ List.mem_map_of_mem CustomerStat.customerId hmem)
      simp [lookupStat, hx, ih hnd.2 hmem]

/-- Every entry of `customerStats` counts exactly the rows with its customer
id and sums exactly their total costs. -/
theorem customerStats_count_spent (rs : List Rental) (e : CustomerStat)
    (he : e ∈ customerStats rs) :
    e.rentalCount = rs.countP (fun r => r.customerId == e.customerId) ∧
    e.totalSpent = spentFor rs e.customerId := by
  have h1 := lookupStat_of_mem (customerStats rs) e (nodup_keys_customerStats rs) he
  have h2 := lookupStat_customerStats rs e.customerId
  rw [h1] at h2
  exact ⟨congrArg Prod.fst h2, congrArg Prod.snd h2⟩

/-- C7: for every cutoff, both top-N reports consider exactly the
non-Cancelled (Ongoing or Completed) rentals dated at or after the cutoff;
the top-cars result counts occurrences per car and is sorted by descending
rental count, the top-customers result counts occurrences and sums
`total_cost` per customer and is sorted by descending total spent, and each
result has at most 5 entries. -/
theorem top_reports_spec (rentals : List Rental) (cutoff : Int) :
    (∀ r : Rental, reportRowSelected cutoff r =
      (cutoff ≤ r.rentalDate &&
        (r.status == RentalStatus.Ongoing || r.status == RentalStatus.Completed))) ∧
    (getTopCars rentals cutoff).length ≤ 5 ∧
    List.Sorted countGe (getTopCars rentals cutoff) ∧
    (∀ e ∈ getTopCars rentals cutoff,
      e.2 = (rentals.filter (reportRowSelected cutoff)).countP
        (fun r => r.carId == e.1)) ∧
    (getTopCustomers rentals cutoff).length ≤ 5 ∧
    List.Sorted spentGe (getTopCustomers rentals cutoff) ∧
    (∀ e ∈ getTopCustomers rentals cutoff,
      e.rentalCount = (rentals.filter (reportRowSelected cutoff)).countP
        (fun r => r.customerId == e.customerId) ∧
      e.totalSpent = spentFor (rentals.filter (reportRowSelected cutoff)) e.customerId) := by
  refine ⟨?_, ?_, ?_, ?_, ?_, ?_, ?_⟩
  · intro r
    rcases hs : r.status <;> simp [reportRowSelected, hs]
  · exact List.length_take_le 5 _
  · exact (List.sorted_insertionSort countGe _).sublist (List.take_sublist 5 _)
  · intro e he
    have h1 : e ∈ (carCounts (rentals.filter (reportRowSelected cutoff))).insertionSort countGe :=
      List.take_subset 5 _ he
    have h2 : e ∈ carCounts (rentals.filter (reportRowSelected cutoff)) :=
      (List.perm_insertionSort countGe _).mem_iff.mp h1
    exact carCounts_count _ e h2
  · exact List.length_take_le 5 _
  · exact (List.sorted_insertionSort spentGe _).sublist (List.take_sublist 5 _)
  · intro e he
    have h1 : e ∈ (customerStats (rentals.filter (reportRowSelected cutoff))).insertionSort spentGe :=
      List.take_subset 5 _ he
    have h2 : e ∈ customerStats (rentals.filter (reportRowSelected cutoff)) :=
      (List.perm_insertionSort spentGe _).mem_iff.mp h1
    exact customerStats_count_spent _ e h2

end CarRental
